import Mathlib

/-!
Verification of the iNES / NES 2.0 cartridge-header decoder of
src/memory.rs (`CartridgeData::new`) against its specification.

Modelling conventions:
* Bytes are natural numbers; the Rust code reads them from a `Vec<u8>`,
  so every header byte the code manipulates is below 256 (the theorems
  never need that bound, since the code masks every byte it combines).
* `usize` is 64 bits.  All arithmetic performed by the decoder stays
  far below `2 ^ 64` except the exponent/multiplier product of
  lines 109/116, which is therefore reduced `% 2 ^ 64` — the wrapping
  behaviour of a release build.  `sizeDecodeChecked` models the same
  lines under the overflow-trapping semantics of a debug build, and
  `withCapacityOk` models the capacity-overflow panic of the
  `Vec::with_capacity` calls of lines 119-120, which fires in every
  build profile once a requested capacity exceeds `isize::MAX` bytes.
* Indexing `header[i]` only happens after the length check, so a total
  `getD` with default 0 is an exact model of the in-bounds accesses.
-/

set_option maxRecDepth 8000

namespace ZNES

/-- Equality of decode results is decidable. -/
instance {ε α : Type} [DecidableEq ε] [DecidableEq α] :
    DecidableEq (Except ε α) := fun a b =>
  match a, b with
  | .error e, .error f =>
    if h : e = f then isTrue (by rw [h])
    else isFalse (by intro hc; injection hc; contradiction)
  | .ok x, .ok y =>
    if h : x = y then isTrue (by rw [h])
    else isFalse (by intro hc; injection hc; contradiction)
  | .error _, .ok _ => isFalse (fun hc => Except.noConfusion hc)
  | .ok _, .error _ => isFalse (fun hc => Except.noConfusion hc)

/-- RomReadError, src/memory.rs lines 1-5. -/
inductive RomReadError where
  | tooShort : RomReadError
  | invalidHeader : Nat → RomReadError
  deriving DecidableEq

/-- Model of a Rust `Vec<u8>`: `Vec::with_capacity(n)` records the
reserved capacity `n` and holds no elements.  The real
`Vec::with_capacity` panics when `n` exceeds `isize::MAX` bytes; that
guard is modelled separately by `withCapacityOk`, so this structure
records the requested capacity whether or not the request is legal. -/
structure RustVec where
  capacity : Nat
  data : List Nat
  deriving DecidableEq

/-- The CartridgeData struct, src/memory.rs lines 7-19. -/
structure CartridgeData where
  trainer : Option (List Nat)
  prg_rom : RustVec
  chr_rom : RustVec
  mapper_number : Nat
  vertical_mirroring : Bool
  four_screen_vram : Bool
  deriving DecidableEq

/-- Byte access `filebytes[i]` (all accesses in the source are made
after the 16-byte length check, hence in bounds for indices 0-15). -/
def byte (bytes : List Nat) (i : Nat) : Nat := bytes.getD i 0

/-- The signature bytes, src/memory.rs line 29. -/
def valid_first_four : List Nat := [0x4e, 0x45, 0x53, 0x1a]

/-- Line 44: `vertical_mirroring = (header[6] & 0b1) == 1`. -/
def verticalMirroringFlag (b6 : Nat) : Bool := (b6 &&& 0b1) == 1

/-- Line 46: trainer-present test `(header[6] & 0b100) >> 2 == 1`. -/
def trainerFlag (b6 : Nat) : Bool := ((b6 &&& 0b100) >>> 2) == 1

/-- Line 54: `four_screen_vram = (header[6] & 0b1000) >> 3 == 1`. -/
def fourScreenFlag (b6 : Nat) : Bool := ((b6 &&& 0b1000) >>> 3) == 1

/-- Line 61: the NES 2.0 ("Extended") dialect test
`(header[7] & 0b1100) >> 2 == 0b10`. -/
def isNes2 (b7 : Nat) : Bool := ((b7 &&& 0b1100) >>> 2) == 0b10

/-- Line 58: `mapper_number = (header[7] & 0xf0) | ((header[6] & 0xf0) >> 4)`. -/
def mapperLow (b6 b7 : Nat) : Nat := (b7 &&& 0xf0) ||| ((b6 &&& 0xf0) >>> 4)

/-- Lines 58 and 65: the full mapper number, with the MSB nibble of
byte 8 merged in (line 65) only in the NES 2.0 branch. -/
def mapperFull (b6 b7 b8 : Nat) : Nat :=
  if isNes2 b7 then mapperLow b6 b7 ||| ((b8 &&& 0xf) <<< 8) else mapperLow b6 b7

/-- Lines 36 and 73: PRG-ROM size byte 4, with the byte-9 low-nibble
MSB merged in only in the NES 2.0 branch. -/
def prgMerged (b4 b7 b9 : Nat) : Nat :=
  if isNes2 b7 then b4 ||| ((b9 &&& 0xf) <<< 8) else b4

/-- Lines 37 and 74: CHR-ROM size byte 5, with the byte-9 high-nibble
MSB merged in only in the NES 2.0 branch. -/
def chrMerged (b5 b7 b9 : Nat) : Nat :=
  if isNes2 b7 then b5 ||| ((b9 &&& 0xf0) <<< 4) else b5

/-- Lines 104-117: exponent/multiplier reinterpretation of a size whose
top byte is 0xF.  The product `(0b1 << exponent) * (multiplier * 2 + 1)`
is computed on `usize` and can exceed `2 ^ 64 - 1` (exponent goes up to
63), so the release-build result is the product mod `2 ^ 64`. -/
def sizeDecode (size : Nat) : Nat :=
  if size >>> 8 = 0xf then
    ((1 <<< ((size &&& 0x0ff) >>> 2)) * ((size &&& 0b11) * 2 + 1)) % 2 ^ 64
  else size

/-- Lines 119-120 under panic sensitivity: `Vec::<u8>::with_capacity(n)`
panics with a capacity overflow when `n` exceeds
`isize::MAX = 2 ^ 63 - 1`, in every build profile.  `true` means the
allocation request is legal; `CartridgeData.new` itself records the
requested capacity without this check, so the check is stated
separately wherever freedom from panics is asserted. -/
def withCapacityOk (n : Nat) : Bool := decide (n < 2 ^ 63)

/-- Lines 104-117 under debug-build (overflow-trapping) semantics: the
multiplication aborts instead of wrapping when the mathematical product
does not fit in `usize`. -/
def sizeDecodeChecked (size : Nat) : Option Nat :=
  if size >>> 8 = 0xf then
    let v := (1 <<< ((size &&& 0x0ff) >>> 2)) * ((size &&& 0b11) * 2 + 1)
    if v < 2 ^ 64 then some v else none
  else some size

/-- Lines 39 and 46-53: the trainer block is bytes [16, 528) of the
input when the trainer flag is set (this path is only reached after the
length guard has passed), absent otherwise. -/
def trainerOf (filebytes : List Nat) : Option (List Nat) :=
  if trainerFlag (byte filebytes 6) then
    some ((filebytes.drop 16).take 512)
  else none

/-- CartridgeData::new, src/memory.rs lines 22-130.  Early `return Err`
paths become the leading guards; the NES 2.0 / iNES branch of
lines 61-101 lives inside `mapperFull`, `prgMerged` and `chrMerged`. -/
def CartridgeData.new (filebytes : List Nat) :
    Except RomReadError CartridgeData :=
  if filebytes.length < 16 then .error .tooShort
  else if byte filebytes 0 ≠ 0x4e then .error (.invalidHeader 0)
  else if byte filebytes 1 ≠ 0x45 then .error (.invalidHeader 1)
  else if byte filebytes 2 ≠ 0x53 then .error (.invalidHeader 2)
  else if byte filebytes 3 ≠ 0x1a then .error (.invalidHeader 3)
  else if trainerFlag (byte filebytes 6) = true ∧ filebytes.length < 16 + 512 then
    .error (.invalidHeader 6)
  else
    .ok
      { trainer := trainerOf filebytes
        prg_rom := ⟨sizeDecode (prgMerged (byte filebytes 4) (byte filebytes 7)
                      (byte filebytes 9)), []⟩
        chr_rom := ⟨sizeDecode (chrMerged (byte filebytes 5) (byte filebytes 7)
                      (byte filebytes 9)), []⟩
        mapper_number := mapperFull (byte filebytes 6) (byte filebytes 7)
                      (byte filebytes 8)
        vertical_mirroring := verticalMirroringFlag (byte filebytes 6)
        four_screen_vram := fourScreenFlag (byte filebytes 6) }

/-- Successful-decode test. -/
def decodeOk (r : Except RomReadError CartridgeData) : Bool :=
  match r with
  | .ok _ => true
  | .error _ => false

/-- From the spec (§4.2): bits 2-3 of byte 7 equal to 0b10 select the
Extended dialect. -/
def spec_extended (bytes : List Nat) : Prop :=
  (byte bytes 7 &&& 0b1100) >>> 2 = 0b10

instance (bytes : List Nat) : Decidable (spec_extended bytes) :=
  inferInstanceAs (Decidable (_ = _))

/-- From the spec (§4.3): the 12-bit mapper number as nibble
concatenation — low nibble from byte 6, bits 4-7 from byte 7, and in
the Extended dialect bits 8-11 from byte 8. -/
def spec_mapper (bytes : List Nat) : Nat :=
  if spec_extended bytes then
    ((byte bytes 6 &&& 0xF0) >>> 4) ||| (byte bytes 7 &&& 0xF0) |||
      ((byte bytes 8 &&& 0x0F) <<< 8)
  else
    ((byte bytes 6 &&& 0xF0) >>> 4) ||| (byte bytes 7 &&& 0xF0)

/-- From the spec (§4.4): the PRG base count, byte 4 merged with
`(byte9 & 0x0F) << 8` in the Extended dialect only. -/
def spec_prg_merged (bytes : List Nat) : Nat :=
  if spec_extended bytes then byte bytes 4 ||| ((byte bytes 9 &&& 0x0F) <<< 8)
  else byte bytes 4

/-- From the spec (§4.4): the CHR base count, byte 5 merged with
`(byte9 & 0xF0) << 4` in the Extended dialect only. -/
def spec_chr_merged (bytes : List Nat) : Nat :=
  if spec_extended bytes then byte bytes 5 ||| ((byte bytes 9 &&& 0xF0) <<< 4)
  else byte bytes 5

/-- From the spec (§4.4), amended with the 64-bit wrap: if the merged
count's top byte is 0xF it is replaced by
`2 ^ exponent * (multiplier * 2 + 1)` reduced mod `2 ^ 64`, where
`multiplier` is the low two bits and `exponent` bits 2-7. -/
def spec_prg_count (bytes : List Nat) : Nat :=
  if spec_prg_merged bytes >>> 8 = 0xF then
    (2 ^ ((spec_prg_merged bytes &&& 0x0FF) >>> 2) *
      ((spec_prg_merged bytes &&& 0b11) * 2 + 1)) % 2 ^ 64
  else spec_prg_merged bytes

/-- From the spec (§4.4), amended with the 64-bit wrap: the CHR unit
count under the same exponent/multiplier reinterpretation. -/
def spec_chr_count (bytes : List Nat) : Nat :=
  if spec_chr_merged bytes >>> 8 = 0xF then
    (2 ^ ((spec_chr_merged bytes &&& 0x0FF) >>> 2) *
      ((spec_chr_merged bytes &&& 0b11) * 2 + 1)) % 2 ^ 64
  else spec_chr_merged bytes

/-! Shared helper lemmas. -/

/-- A successful decode determines every field of the descriptor. -/
theorem new_ok_elim (bytes : List Nat) (d : CartridgeData)
    (hok : CartridgeData.new bytes = .ok d) :
    d = ⟨trainerOf bytes,
      ⟨sizeDecode (prgMerged (byte bytes 4) (byte bytes 7) (byte bytes 9)), []⟩,
      ⟨sizeDecode (chrMerged (byte bytes 5) (byte bytes 7) (byte bytes 9)), []⟩,
      mapperFull (byte bytes 6) (byte bytes 7) (byte bytes 8),
      verticalMirroringFlag (byte bytes 6), fourScreenFlag (byte bytes 6)⟩ := by
  unfold CartridgeData.new at hok
  split_ifs at hok
  all_goals
    first
      | exact Except.noConfusion hok
      | (injection hok with h; exact h.symm)

/-- Under the guards of the source, decoding succeeds with the record
built from the component functions. -/
theorem new_eq_ok (bytes : List Nat)
    (h16 : 16 ≤ bytes.length)
    (h0 : byte bytes 0 = 0x4e) (h1 : byte bytes 1 = 0x45)
    (h2 : byte bytes 2 = 0x53) (h3 : byte bytes 3 = 0x1a)
    (htr : trainerFlag (byte bytes 6) = true → 16 + 512 ≤ bytes.length) :
    CartridgeData.new bytes = .ok
      ⟨trainerOf bytes,
        ⟨sizeDecode (prgMerged (byte bytes 4) (byte bytes 7) (byte bytes 9)), []⟩,
        ⟨sizeDecode (chrMerged (byte bytes 5) (byte bytes 7) (byte bytes 9)), []⟩,
        mapperFull (byte bytes 6) (byte bytes 7) (byte bytes 8),
        verticalMirroringFlag (byte bytes 6), fourScreenFlag (byte bytes 6)⟩ := by
  unfold CartridgeData.new
  rw [if_neg (by omega), if_neg (not_not_intro h0), if_neg (not_not_intro h1),
    if_neg (not_not_intro h2), if_neg (not_not_intro h3), if_neg]
  rintro ⟨hfl, hlt⟩
  exact absurd (htr hfl) (by omega)

/-- Flag extraction `(b &&& 2 ^ k) >>> k` is the tested bit. -/
theorem and_pow_shift (b k : Nat) :
    (b &&& 2 ^ k) >>> k = (b.testBit k).toNat := by
  rw [Nat.and_two_pow, Nat.shiftRight_eq_div_pow,
    Nat.mul_div_cancel _ (Nat.pos_pow_of_pos k (by omega))]

/-- The trainer flag of line 46 is bit 2 of byte 6. -/
theorem trainerFlag_eq_testBit (b : Nat) : trainerFlag b = b.testBit 2 := by
  have h : (0b100 : Nat) = 2 ^ 2 := rfl
  unfold trainerFlag
  rw [h, and_pow_shift]
  cases hb : b.testBit 2 <;> simp [hb]

/-- The vertical-mirroring flag of line 44 is bit 0 of byte 6. -/
theorem verticalMirroringFlag_eq_testBit (b : Nat) :
    verticalMirroringFlag b = b.testBit 0 := by
  have h : (0b1 : Nat) = 2 ^ 0 := rfl
  have h0 : b &&& 0b1 = (b &&& 2 ^ 0) >>> 0 := by rw [h, Nat.shiftRight_zero]
  unfold verticalMirroringFlag
  rw [h0, and_pow_shift]
  cases hb : b.testBit 0 <;> simp [hb]

/-- The four-screen flag of line 54 is bit 3 of byte 6. -/
theorem fourScreenFlag_eq_testBit (b : Nat) : fourScreenFlag b = b.testBit 3 := by
  have h : (0b1000 : Nat) = 2 ^ 3 := rfl
  unfold fourScreenFlag
  rw [h, and_pow_shift]
  cases hb : b.testBit 3 <;> simp [hb]

/-- The NES 2.0 test of line 61 decides the spec's Extended dialect. -/
theorem isNes2_eq_spec (bytes : List Nat) :
    isNes2 (byte bytes 7) = decide (spec_extended bytes) := by
  unfold isNes2 spec_extended
  by_cases h : (byte bytes 7 &&& 0b1100) >>> 2 = 0b10 <;> simp [h]

/-! Concrete inputs used by the witnesses and counterexamples. -/

/-- Sixteen-byte input whose byte 1 breaks the signature. -/
def c4Bad : List Nat := [0x4e, 0x99, 0x53, 0x1a, 0, 0, 0, 0, 0, 0, 0, 0, 0, 0, 0, 0]

/-- Sixteen-byte input with a valid signature and all other bytes zero. -/
def c4Good : List Nat := [0x4e, 0x45, 0x53, 0x1a, 0, 0, 0, 0, 0, 0, 0, 0, 0, 0, 0, 0]

/-! Claim theorems. -/

/-- C5: for every input shorter than 16 bytes (including the empty
input) decoding fails with TooShort, and with no other error kind. -/
theorem C5_theorem (bytes : List Nat) (h : bytes.length < 16) :
    CartridgeData.new bytes = .error .tooShort := by
  unfold CartridgeData.new
  rw [if_pos h]

/-- C5 witness: the empty input fails with TooShort. -/
theorem C5_witness : CartridgeData.new [] = .error .tooShort :=
  C5_theorem [] (by decide)

/-- C4: for every input of length ≥ 16, a first signature mismatch at
position i < 4 fails with InvalidHeader i, and when the first four
bytes equal the signature the check passes (decoding can only still
fail with the trainer error at index 6). -/
theorem C4_theorem (bytes : List Nat) (h16 : 16 ≤ bytes.length) :
    (∀ i, i < 4 →
        (∀ j, j < i → byte bytes j = byte valid_first_four j) →
        byte bytes i ≠ byte valid_first_four i →
        CartridgeData.new bytes = .error (.invalidHeader i)) ∧
    ((∀ i, i < 4 → byte bytes i = byte valid_first_four i) →
        decodeOk (CartridgeData.new bytes) = true ∨
          CartridgeData.new bytes = .error (.invalidHeader 6)) := by
  constructor
  · intro i hi hprev hne
    interval_cases i
    · have hne' : byte bytes 0 ≠ 0x4e := hne
      unfold CartridgeData.new
      rw [if_neg (by omega), if_pos hne']
    · have e0 : byte bytes 0 = 0x4e := hprev 0 (by omega)
      have hne' : byte bytes 1 ≠ 0x45 := hne
      unfold CartridgeData.new
      rw [if_neg (by omega), if_neg (not_not_intro e0), if_pos hne']
    · have e0 : byte bytes 0 = 0x4e := hprev 0 (by omega)
      have e1 : byte bytes 1 = 0x45 := hprev 1 (by omega)
      have hne' : byte bytes 2 ≠ 0x53 := hne
      unfold CartridgeData.new
      rw [if_neg (by omega), if_neg (not_not_intro e0), if_neg (not_not_intro e1),
        if_pos hne']
    · have e0 : byte bytes 0 = 0x4e := hprev 0 (by omega)
      have e1 : byte bytes 1 = 0x45 := hprev 1 (by omega)
      have e2 : byte bytes 2 = 0x53 := hprev 2 (by omega)
      have hne' : byte bytes 3 ≠ 0x1a := hne
      unfold CartridgeData.new
      rw [if_neg (by omega), if_neg (not_not_intro e0), if_neg (not_not_intro e1),
        if_neg (not_not_intro e2), if_pos hne']
  · intro hsig
    have h0 : byte bytes 0 = 0x4e := hsig 0 (by omega)
    have h1 : byte bytes 1 = 0x45 := hsig 1 (by omega)
    have h2 : byte bytes 2 = 0x53 := hsig 2 (by omega)
    have h3 : byte bytes 3 = 0x1a := hsig 3 (by omega)
    by_cases htr : trainerFlag (byte bytes 6) = true ∧ bytes.length < 16 + 512
    · right
      unfold CartridgeData.new
      rw [if_neg (by omega), if_neg (not_not_intro h0), if_neg (not_not_intro h1),
        if_neg (not_not_intro h2), if_neg (not_not_intro h3), if_pos htr]
    · left
      rw [new_eq_ok bytes h16 h0 h1 h2 h3
        (fun hfl => by by_contra hc; exact htr ⟨hfl, by omega⟩)]
      rfl

/-- C4 witness: a byte-1 mismatch is reported at index 1, and an intact
signature passes the check. -/
theorem C4_witness :
    CartridgeData.new c4Bad = .error (.invalidHeader 1) ∧
    (decodeOk (CartridgeData.new c4Good) = true ∨
      CartridgeData.new c4Good = .error (.invalidHeader 6)) :=
  ⟨(C4_theorem c4Bad (by decide)).1 1 (by decide) (by decide) (by decide),
   (C4_theorem c4Good (by decide)).2 (by decide)⟩

/-- Input with the trainer flag set and exactly 512 trailing bytes. -/
def c6Full : List Nat :=
  [0x4e, 0x45, 0x53, 0x1a, 0, 0, 0b100, 0, 0, 0, 0, 0, 0, 0, 0, 0] ++
    List.replicate 512 0xab

/-- Input with the trainer flag set and no trailing bytes. -/
def c6Short : List Nat := [0x4e, 0x45, 0x53, 0x1a, 0, 0, 0b100, 0, 0, 0, 0, 0, 0, 0, 0, 0]

/-- Valid input with the trainer flag unset. -/
def c6Off : List Nat := [0x4e, 0x45, 0x53, 0x1a, 0, 0, 0, 0, 0, 0, 0, 0, 0, 0, 0, 0]

/-- C6: for every validated input, a set trainer flag with at least 528
total bytes yields the trainer equal to bytes [16, 528); a set flag
with fewer bytes fails with InvalidHeader 6; an unset flag yields an
absent trainer. -/
theorem C6_theorem (bytes : List Nat) (h16 : 16 ≤ bytes.length)
    (h0 : byte bytes 0 = 0x4e) (h1 : byte bytes 1 = 0x45)
    (h2 : byte bytes 2 = 0x53) (h3 : byte bytes 3 = 0x1a) :
    ((byte bytes 6).testBit 2 = true → 16 + 512 ≤ bytes.length →
        (CartridgeData.new bytes).map (fun d => d.trainer) =
          .ok (some ((bytes.drop 16).take 512))) ∧
    ((byte bytes 6).testBit 2 = true → bytes.length < 16 + 512 →
        CartridgeData.new bytes = .error (.invalidHeader 6)) ∧
    ((byte bytes 6).testBit 2 = false →
        (CartridgeData.new bytes).map (fun d => d.trainer) = .ok none) := by
  refine ⟨?_, ?_, ?_⟩
  · intro ht hlen
    have hfl : trainerFlag (byte bytes 6) = true := by
      rw [trainerFlag_eq_testBit]; exact ht
    rw [new_eq_ok bytes h16 h0 h1 h2 h3 (fun _ => hlen)]
    simp [Except.map, trainerOf, hfl]
  · intro ht hlen
    have hfl : trainerFlag (byte bytes 6) = true := by
      rw [trainerFlag_eq_testBit]; exact ht
    unfold CartridgeData.new
    rw [if_neg (by omega), if_neg (not_not_intro h0), if_neg (not_not_intro h1),
      if_neg (not_not_intro h2), if_neg (not_not_intro h3), if_pos ⟨hfl, hlen⟩]
  · intro ht
    have hfl : trainerFlag (byte bytes 6) = false := by
      rw [trainerFlag_eq_testBit]; exact ht
    rw [new_eq_ok bytes h16 h0 h1 h2 h3 (fun h => absurd h (by simp [hfl]))]
    simp [Except.map, trainerOf, hfl]

/-- C6 witness: the three scenarios at concrete inputs. -/
theorem C6_witness :
    (CartridgeData.new c6Full).map (fun d => d.trainer) =
      .ok (some ((c6Full.drop 16).take 512)) ∧
    CartridgeData.new c6Short = .error (.invalidHeader 6) ∧
    (CartridgeData.new c6Off).map (fun d => d.trainer) = .ok none :=
  ⟨(C6_theorem c6Full (by decide) (by decide) (by decide) (by decide)
      (by decide)).1 (by decide) (by decide),
   (C6_theorem c6Short (by decide) (by decide) (by decide) (by decide)
      (by decide)).2.1 (by decide) (by decide),
   (C6_theorem c6Off (by decide) (by decide) (by decide) (by decide)
      (by decide)).2.2 (by decide)⟩

/-- C7: on success, vertical_mirroring is exactly bit 0 of byte 6 and
four_screen_vram is exactly bit 3 of byte 6, each a function of that
single bit only. -/
theorem C7_theorem (bytes : List Nat) (d : CartridgeData)
    (hok : CartridgeData.new bytes = .ok d) :
    d.vertical_mirroring = (byte bytes 6).testBit 0 ∧
    d.four_screen_vram = (byte bytes 6).testBit 3 := by
  have hd := new_ok_elim bytes d hok
  subst hd
  exact ⟨verticalMirroringFlag_eq_testBit _, fourScreenFlag_eq_testBit _⟩

/-- Valid input with byte 6 = 0b1001 (bits 0 and 3 set). -/
def c7Bytes : List Nat := [0x4e, 0x45, 0x53, 0x1a, 0, 0, 0b1001, 0, 0, 0, 0, 0, 0, 0, 0, 0]

/-- Decode result for c7Bytes. -/
def c7Data : CartridgeData := ⟨none, ⟨0, []⟩, ⟨0, []⟩, 0, true, true⟩

/-- C7 witness: byte 6 = 0b1001 sets both booleans. -/
theorem C7_witness :
    c7Data.vertical_mirroring = (byte c7Bytes 6).testBit 0 ∧
    c7Data.four_screen_vram = (byte c7Bytes 6).testBit 3 :=
  C7_theorem c7Bytes c7Data (by decide)

/-- The assembled mapper number always fits in 12 bits. -/
theorem mapperFull_lt (b6 b7 b8 : Nat) : mapperFull b6 b7 b8 < 4096 := by
  have h2 : (4096 : Nat) = 2 ^ 12 := by norm_num
  have hlow : mapperLow b6 b7 < 2 ^ 12 := by
    apply Nat.or_lt_two_pow
    · exact lt_of_le_of_lt Nat.and_le_right (by norm_num)
    · rw [Nat.shiftRight_eq_div_pow]
      exact lt_of_le_of_lt (Nat.div_le_self _ _)
        (lt_of_le_of_lt Nat.and_le_right (by norm_num))
  have hmsb : (b8 &&& 0xf) <<< 8 < 2 ^ 12 := by
    rw [Nat.shiftLeft_eq]
    calc (b8 &&& 0xf) * 2 ^ 8 ≤ 15 * 2 ^ 8 :=
          Nat.mul_le_mul_right _ Nat.and_le_right
      _ < 2 ^ 12 := by norm_num
  unfold mapperFull
  split
  · rw [h2]
    exact Nat.or_lt_two_pow hlow hmsb
  · rw [h2]
    exact hlow

/-- C9: every successfully decoded mapper_number is at most 4095. -/
theorem C9_theorem (bytes : List Nat) (d : CartridgeData)
    (hok : CartridgeData.new bytes = .ok d) :
    d.mapper_number ≤ 4095 := by
  have hd := new_ok_elim bytes d hok
  subst hd
  have := mapperFull_lt (byte bytes 6) (byte bytes 7) (byte bytes 8)
  simpa using Nat.lt_succ_iff.mp this

/-- Valid NES 2.0 input with mapper nibbles in bytes 6, 7 and 8. -/
def c9Bytes : List Nat := [0x4e, 0x45, 0x53, 0x1a, 0, 0, 0xe0, 0x38, 0x0a, 0, 0, 0, 0, 0, 0, 0]

/-- Decode result for c9Bytes. -/
def c9Data : CartridgeData := ⟨none, ⟨0, []⟩, ⟨0, []⟩, 0xa3e, false, false⟩

/-- C9 witness: the Extended-dialect mapper 0xA3E is within 12 bits. -/
theorem C9_witness : c9Data.mapper_number ≤ 4095 :=
  C9_theorem c9Bytes c9Data (by decide)

/-- C10: on success the prg_rom and chr_rom byte sequences are empty. -/
theorem C10_theorem (bytes : List Nat) (d : CartridgeData)
    (hok : CartridgeData.new bytes = .ok d) :
    d.prg_rom.data = [] ∧ d.chr_rom.data = [] := by
  have hd := new_ok_elim bytes d hok
  subst hd
  exact ⟨rfl, rfl⟩

/-- Valid all-zero input for the C10 witness. -/
def c10Bytes : List Nat := [0x4e, 0x45, 0x53, 0x1a, 0, 0, 0, 0, 0, 0, 0, 0, 0, 0, 0, 0]

/-- Decode result for c10Bytes. -/
def c10Data : CartridgeData := ⟨none, ⟨0, []⟩, ⟨0, []⟩, 0, false, false⟩

/-- C10 witness: the all-zero header decodes to empty ROM vectors. -/
theorem C10_witness : c10Data.prg_rom.data = [] ∧ c10Data.chr_rom.data = [] :=
  C10_theorem c10Bytes c10Data (by decide)

/-- The assembled mapper number equals the spec's nibble concatenation. -/
theorem mapperFull_eq_spec (bytes : List Nat) :
    mapperFull (byte bytes 6) (byte bytes 7) (byte bytes 8) = spec_mapper bytes := by
  unfold mapperFull spec_mapper mapperLow
  rw [isNes2_eq_spec]
  by_cases h : spec_extended bytes
  · simp only [h, decide_True, if_true, if_pos h]
    rw [Nat.lor_comm (byte bytes 7 &&& 0xf0)]
  · simp only [h, decide_False, Bool.false_eq_true, if_false, if_neg h]
    rw [Nat.lor_comm (byte bytes 7 &&& 0xf0)]

/-- C2: on success the mapper_number is the 12-bit nibble concatenation
of the high nibble of byte 6 (shifted right 4), the high nibble of
byte 7 (unshifted) and, in the Extended dialect only, the low nibble of
byte 8 shifted left 8. -/
theorem C2_theorem (bytes : List Nat) (d : CartridgeData)
    (hok : CartridgeData.new bytes = .ok d) :
    d.mapper_number = spec_mapper bytes := by
  have hd := new_ok_elim bytes d hok
  subst hd
  exact mapperFull_eq_spec bytes

/-- Legacy-dialect input with byte 6 = 0xE0 and byte 7 = 0x30. -/
def c2Legacy : List Nat := [0x4e, 0x45, 0x53, 0x1a, 0, 0, 0xe0, 0x30, 0, 0, 0, 0, 0, 0, 0, 0]

/-- Decode result for c2Legacy. -/
def c2LegacyData : CartridgeData := ⟨none, ⟨0, []⟩, ⟨0, []⟩, 0x3e, false, false⟩

/-- Extended-dialect input with bytes 6, 7, 8 = 0xE0, 0x38, 0x0A. -/
def c2Ext : List Nat := [0x4e, 0x45, 0x53, 0x1a, 0, 0, 0xe0, 0x38, 0x0a, 0, 0, 0, 0, 0, 0, 0]

/-- Decode result for c2Ext. -/
def c2ExtData : CartridgeData := ⟨none, ⟨0, []⟩, ⟨0, []⟩, 0xa3e, false, false⟩

/-- C2 witness: the two examples of the claim, 0x3E and 0xA3E. -/
theorem C2_witness :
    (c2LegacyData.mapper_number = spec_mapper c2Legacy ∧
      c2LegacyData.mapper_number = 0x3e) ∧
    (c2ExtData.mapper_number = spec_mapper c2Ext ∧
      c2ExtData.mapper_number = 0xa3e) :=
  ⟨⟨C2_theorem c2Legacy c2LegacyData (by decide), by decide⟩,
   ⟨C2_theorem c2Ext c2ExtData (by decide), by decide⟩⟩

/-- The merged PRG size byte agrees with the spec-side merge. -/
theorem prgMerged_eq_spec (bytes : List Nat) :
    prgMerged (byte bytes 4) (byte bytes 7) (byte bytes 9) =
      spec_prg_merged bytes := by
  unfold prgMerged spec_prg_merged
  rw [isNes2_eq_spec]
  by_cases h : spec_extended bytes <;> simp [h]

/-- The merged CHR size byte agrees with the spec-side merge. -/
theorem chrMerged_eq_spec (bytes : List Nat) :
    chrMerged (byte bytes 5) (byte bytes 7) (byte bytes 9) =
      spec_chr_merged bytes := by
  unfold chrMerged spec_chr_merged
  rw [isNes2_eq_spec]
  by_cases h : spec_extended bytes <;> simp [h]

/-- The decoded PRG capacity equals the spec-side count. -/
theorem prg_capacity_eq_spec (bytes : List Nat) :
    sizeDecode (prgMerged (byte bytes 4) (byte bytes 7) (byte bytes 9)) =
      spec_prg_count bytes := by
  rw [prgMerged_eq_spec]
  unfold sizeDecode spec_prg_count
  rw [Nat.one_shiftLeft]

/-- The decoded CHR capacity equals the spec-side count. -/
theorem chr_capacity_eq_spec (bytes : List Nat) :
    sizeDecode (chrMerged (byte bytes 5) (byte bytes 7) (byte bytes 9)) =
      spec_chr_count bytes := by
  rw [chrMerged_eq_spec]
  unfold sizeDecode spec_chr_count
  rw [Nat.one_shiftLeft]

/-- C1 (amended): on success the reserved PRG and CHR capacities equal
the spec's merge-then-reinterpret formula with the exponent/multiplier
product reduced mod 2 ^ 64 (the usize wrap). -/
theorem C1_theorem (bytes : List Nat) (d : CartridgeData)
    (hok : CartridgeData.new bytes = .ok d) :
    d.prg_rom.capacity = spec_prg_count bytes ∧
    d.chr_rom.capacity = spec_chr_count bytes := by
  have hd := new_ok_elim bytes d hok
  subst hd
  exact ⟨prg_capacity_eq_spec bytes, chr_capacity_eq_spec bytes⟩

/-- Extended input whose merged PRG count is 0xF05: top byte 0xF,
multiplier bits 01, exponent bits 00001. -/
def c1ExBytes : List Nat := [0x4e, 0x45, 0x53, 0x1a, 0x05, 0, 0, 0x08, 0, 0x0f, 0, 0, 0, 0, 0, 0]

/-- Decode result for c1ExBytes. -/
def c1ExData : CartridgeData := ⟨none, ⟨6, []⟩, ⟨0, []⟩, 0, false, false⟩

/-- C1 witness: merged count 0xF05 decodes to unit count 6. -/
theorem C1_witness :
    c1ExData.prg_rom.capacity = spec_prg_count c1ExBytes ∧
    spec_prg_count c1ExBytes = 6 :=
  ⟨(C1_theorem c1ExBytes c1ExData (by decide)).1, by decide⟩

/-- Extended input whose merged PRG count is 0xFFF: exponent 63 and
multiplier 3, where the usize product wraps. -/
def c1CexBytes : List Nat := [0x4e, 0x45, 0x53, 0x1a, 0xff, 0, 0, 0x08, 0, 0x0f, 0, 0, 0, 0, 0, 0]

/-- C1 counterexample: at merged count 0xFFF (exponent 63, multiplier 3)
the decoder yields the wrapped capacity 2 ^ 63, not the claim's
2 ^ 63 * (3 * 2 + 1). -/
theorem C1_counterexample :
    (CartridgeData.new c1CexBytes).map (fun d => d.prg_rom.capacity) =
      .ok (2 ^ 63) ∧
    prgMerged (byte c1CexBytes 4) (byte c1CexBytes 7) (byte c1CexBytes 9) = 0xfff ∧
    (0xfff : Nat) >>> 8 = 0xf ∧
    (0xfff : Nat) &&& 0b11 = 3 ∧
    ((0xfff : Nat) &&& 0x0ff) >>> 2 = 63 ∧
    2 ^ 63 ≠ 2 ^ 63 * (3 * 2 + 1) := by decide

/-- C3 (amended): with a valid signature and satisfied trainer
precondition, decoding completes successfully, with both
`Vec::with_capacity` requests legal (no capacity-overflow panic), for
every bit pattern of bytes 4, 5 and 9 whose decoded unit counts stay
below `isize::MAX + 1 = 2 ^ 63` — in particular for every
exponent/multiplier encoding whose decoded value is allocatable. -/
theorem C3_theorem (bytes : List Nat) (h16 : 16 ≤ bytes.length)
    (h0 : byte bytes 0 = 0x4e) (h1 : byte bytes 1 = 0x45)
    (h2 : byte bytes 2 = 0x53) (h3 : byte bytes 3 = 0x1a)
    (htr : (byte bytes 6).testBit 2 = true → 16 + 512 ≤ bytes.length)
    (hprg : sizeDecode (prgMerged (byte bytes 4) (byte bytes 7) (byte bytes 9)) < 2 ^ 63)
    (hchr : sizeDecode (chrMerged (byte bytes 5) (byte bytes 7) (byte bytes 9)) < 2 ^ 63) :
    (CartridgeData.new bytes).map
      (fun d => withCapacityOk d.prg_rom.capacity &&
        withCapacityOk d.chr_rom.capacity) = .ok true := by
  rw [new_eq_ok bytes h16 h0 h1 h2 h3
    (fun hfl => htr (by rw [← trainerFlag_eq_testBit]; exact hfl))]
  simp [Except.map, withCapacityOk]
  exact ⟨by simpa using hprg, by simpa using hchr⟩

/-- Extended input with both size fields at merged count 0xFFF, the
maximum exponent (63) and multiplier (3). -/
def c3Bytes : List Nat := [0x4e, 0x45, 0x53, 0x1a, 0xff, 0xff, 0, 0x08, 0, 0xff, 0, 0, 0, 0, 0, 0]

/-- Extended input whose merged PRG count is 0xFFC: exponent 63,
multiplier 0, decoding to exactly 2 ^ 63 with no multiply overflow. -/
def c3Bytes2 : List Nat := [0x4e, 0x45, 0x53, 0x1a, 0xfc, 0, 0, 0x08, 0, 0x0f, 0, 0, 0, 0, 0, 0]

/-- C3 counterexample: the decode has failure paths for some bit
patterns of bytes 4, 5 and 9.  At merged count 0xFFF the release build
wraps the product to 2 ^ 63 and the debug multiplication overflows
outright; at merged count 0xFFC the product 2 ^ 63 fits usize in every
build, yet in both cases the resulting `Vec::with_capacity(2 ^ 63)`
request exceeds `isize::MAX` and panics in every build profile. -/
theorem C3_counterexample :
    (CartridgeData.new c3Bytes).map (fun d => withCapacityOk d.prg_rom.capacity) =
      .ok false ∧
    prgMerged (byte c3Bytes 4) (byte c3Bytes 7) (byte c3Bytes 9) = 0xfff ∧
    sizeDecodeChecked 0xfff = none ∧
    (CartridgeData.new c3Bytes2).map (fun d => withCapacityOk d.prg_rom.capacity) =
      .ok false ∧
    prgMerged (byte c3Bytes2 4) (byte c3Bytes2 7) (byte c3Bytes2 9) = 0xffc ∧
    sizeDecodeChecked 0xffc = some (2 ^ 63) ∧
    withCapacityOk (2 ^ 63) = false := by decide

/-- Extended input whose merged PRG count is 0xFF8: exponent 62,
multiplier 0, decoding to the allocatable count 2 ^ 62, with a
zero-sized CHR region. -/
def c3WBytes : List Nat := [0x4e, 0x45, 0x53, 0x1a, 0xf8, 0, 0, 0x08, 0, 0x0f, 0, 0, 0, 0, 0, 0]

/-- C3 witness: a large exponent-encoded count below 2 ^ 63 (and a
zero-sized region) decodes without error or illegal allocation. -/
theorem C3_witness :
    (CartridgeData.new c3WBytes).map
      (fun d => withCapacityOk d.prg_rom.capacity &&
        withCapacityOk d.chr_rom.capacity) = .ok true :=
  C3_theorem c3WBytes (by decide) (by decide) (by decide) (by decide)
    (by decide) (by decide) (by decide) (by decide)

/-- C8: in the Legacy dialect, two equal-length inputs agreeing on
bytes 0-7 and on everything from byte 16 on decode identically, no
matter how bytes 8-15 differ. -/
theorem C8_theorem (a b : List Nat)
    (hlen : a.length = b.length) (h16 : 16 ≤ a.length)
    (hlow : ∀ i, i < 8 → byte a i = byte b i)
    (hhigh : a.drop 16 = b.drop 16)
    (hleg : (byte a 7 &&& 0b1100) >>> 2 ≠ 0b10) :
    CartridgeData.new a = CartridgeData.new b := by
  have e0 := hlow 0 (by omega)
  have e1 := hlow 1 (by omega)
  have e2 := hlow 2 (by omega)
  have e3 := hlow 3 (by omega)
  have e4 := hlow 4 (by omega)
  have e5 := hlow 5 (by omega)
  have e6 := hlow 6 (by omega)
  have e7 := hlow 7 (by omega)
  have hn2 : isNes2 (byte b 7) = false := by
    rw [← e7]
    unfold isNes2
    simp [hleg]
  unfold CartridgeData.new trainerOf
  rw [hlen, e0, e1, e2, e3, e4, e5, e6, e7, hhigh]
  simp only [mapperFull, prgMerged, chrMerged, hn2, Bool.false_eq_true, if_false]

/-- Legacy input with zero padding bytes 8-15. -/
def c8BytesA : List Nat := [0x4e, 0x45, 0x53, 0x1a, 1, 2, 0, 0, 0, 0, 0, 0, 0, 0, 0, 0]

/-- The same input with all padding bytes 8-15 flipped to 0xFF. -/
def c8BytesB : List Nat :=
  [0x4e, 0x45, 0x53, 0x1a, 1, 2, 0, 0, 0xff, 0xff, 0xff, 0xff, 0xff, 0xff, 0xff, 0xff]

/-- C8 witness: flipping the padding bytes leaves the result unchanged. -/
theorem C8_witness : CartridgeData.new c8BytesA = CartridgeData.new c8BytesB :=
  C8_theorem c8BytesA c8BytesB (by decide) (by decide) (by decide)
    (by decide) (by decide)

end ZNES
